import Mathlib

/-!
Verification of the Blogspot admin panel's core data-flow logic.

The development embeds, as pure Lean functions over `List Char` strings and an
explicit database state (`List Post`), the logic of:
  * `generateSlug` (src/app/admin/add/page.tsx lines 16-23; an identical copy
    lives in src/app/admin/edit/[id]/page.tsx lines 60-67),
  * the listing fetch `fetchPosts` (public blog list page),
  * the public detail fetch `fetchPost` and its error dispatch,
  * the edit view's initial fetch and its error dispatch,
  * the create (`AdminAddPost.handleSubmit`) and edit (`EditPost.handleSubmit`)
    submit handlers, modelled as functions from form state and an environment
    (upload/insert/update success, generated object name, clock) to the list of
    network requests issued, the alerts shown, and the final form state.

Remote-store behaviour that lives outside this repository (the PostgREST-style
single-row query and its error codes) is modelled from the spec where noted.
-/

namespace Blogspot

/-! ## Character-level helpers -/

theorem char_le_iff (a b : Char) : a ≤ b ↔ a.toNat ≤ b.toNat := by
  simp [Char.le_def, UInt32.le_def, BitVec.le_def, Char.toNat, UInt32.toNat]

theorem char_eq_iff (a b : Char) : a = b ↔ a.toNat = b.toNat := by
  constructor
  · intro h; rw [h]
  · intro h
    apply Char.eq_of_val_eq
    apply UInt32.eq_of_toBitVec_eq
    apply BitVec.eq_of_toNat_eq
    simpa [Char.toNat, UInt32.toNat] using h

/-! ## The slug pipeline (`generateSlug`)

Source (add page lines 16-23, identical in the edit page lines 60-67):
```
title.toLowerCase()
  .replace(/[^a-z0-9 -]/g, "")   // Remove special characters
  .replace(/\s+/g, "-")          // Replace spaces with hyphens
  .replace(re_hyphenRuns, "-")   // Replace multiple hyphens with single
  .trim();
```
Strings are modelled as `List Char`; `toLowerCase` as `Char.toLower` (ASCII
case-mapping, which is what matters after the character filter); each global
regex replacement of a one-character-class run as `squashRuns`. -/

/-- The character class `[a-z0-9 -]` kept by the first regex replacement. -/
def keepChar (c : Char) : Bool :=
  ('a' ≤ c && c ≤ 'z') || ('0' ≤ c && c ≤ '9') || c == ' ' || c == '-'

/-- ASCII whitespace matched by the regex `\s` (space, tab, LF, VT, FF, CR).
Only the space character can survive the `keepChar` filter, so this is the
behaviour of `\s` on every string the pipeline feeds it. -/
def isJsWhitespace (c : Char) : Bool :=
  c == ' ' || c == '\t' || c == '\n' || c == '\x0b' || c == '\x0c' || c == '\r'

/-- The character class `[-]` of the third regex replacement. -/
def isHyphen (c : Char) : Bool :=
  c == '-'

/-- One global regex replacement pass `s.replace(/p+/g, r)`: every maximal run
of characters satisfying `p` is replaced by the single character `r`. -/
def squashRuns (p : Char → Bool) (r : Char) : List Char → List Char
  | [] => []
  | [c] => if p c then [r] else [c]
  | c :: c₂ :: rest =>
    if p c then
      if p c₂ then squashRuns p r (c₂ :: rest)
      else r :: squashRuns p r (c₂ :: rest)
    else c :: squashRuns p r (c₂ :: rest)

/-- JavaScript `String.prototype.trim`: strip whitespace from both ends. -/
def jsTrim (s : List Char) : List Char :=
  ((s.dropWhile isJsWhitespace).reverse.dropWhile isJsWhitespace).reverse

/-- Embeds `generateSlug` (add page lines 16-23 / edit page lines 60-67).
Note the order of operations of the source: `trim()` runs last, after all
whitespace has already been turned into hyphens. -/
def generateSlug (title : List Char) : List Char :=
  jsTrim (squashRuns isHyphen '-'
    (squashRuns isJsWhitespace '-'
      ((title.map Char.toLower).filter keepChar)))

/-! ## Slug-shape predicates (used to state the spec's properties) -/

/-- A character allowed in a spec-shaped slug: lowercase letter, digit, hyphen. -/
def isSlugChar (c : Char) : Bool :=
  ('a' ≤ c && c ≤ 'z') || ('0' ≤ c && c ≤ '9') || c == '-'

/-- No two consecutive hyphens anywhere in the string. -/
def noDoubleHyphen : List Char → Bool
  | [] => true
  | [_] => true
  | c :: c₂ :: rest => !(c == '-' && c₂ == '-') && noDoubleHyphen (c₂ :: rest)

/-- Neither the first nor the last character is a hyphen. -/
def noEdgeHyphen (s : List Char) : Bool :=
  !(s.head? == some '-') && !(s.getLast? == some '-')

/-- The spec's "slug-shaped": only lowercase letters, digits and single
hyphens, with no leading or trailing hyphen. -/
def slugShaped (s : List Char) : Bool :=
  s.all isSlugChar && noDoubleHyphen s && noEdgeHyphen s

/-! ### Numeric characterisations of the character classes -/

theorem keepChar_iff (c : Char) : keepChar c = true ↔
    (97 ≤ c.toNat ∧ c.toNat ≤ 122) ∨ (48 ≤ c.toNat ∧ c.toNat ≤ 57) ∨
      c.toNat = 32 ∨ c.toNat = 45 := by
  have ha : ('a' : Char).toNat = 97 := rfl
  have hz : ('z' : Char).toNat = 122 := rfl
  have h0 : ('0' : Char).toNat = 48 := rfl
  have h9 : ('9' : Char).toNat = 57 := rfl
  have hs : (' ' : Char).toNat = 32 := rfl
  have hh : ('-' : Char).toNat = 45 := rfl
  simp only [keepChar, Bool.or_eq_true, Bool.and_eq_true, decide_eq_true_eq,
    beq_iff_eq, char_le_iff, char_eq_iff, ha, hz, h0, h9, hs, hh]
  omega

theorem isSlugChar_iff (c : Char) : isSlugChar c = true ↔
    (97 ≤ c.toNat ∧ c.toNat ≤ 122) ∨ (48 ≤ c.toNat ∧ c.toNat ≤ 57) ∨
      c.toNat = 45 := by
  have ha : ('a' : Char).toNat = 97 := rfl
  have hz : ('z' : Char).toNat = 122 := rfl
  have h0 : ('0' : Char).toNat = 48 := rfl
  have h9 : ('9' : Char).toNat = 57 := rfl
  have hh : ('-' : Char).toNat = 45 := rfl
  simp only [isSlugChar, Bool.or_eq_true, Bool.and_eq_true, decide_eq_true_eq,
    beq_iff_eq, char_le_iff, char_eq_iff, ha, hz, h0, h9, hh]
  omega

theorem isJsWhitespace_iff (c : Char) : isJsWhitespace c = true ↔
    c.toNat = 32 ∨ c.toNat = 9 ∨ c.toNat = 10 ∨ c.toNat = 11 ∨
      c.toNat = 12 ∨ c.toNat = 13 := by
  have hs : (' ' : Char).toNat = 32 := rfl
  have ht : ('\t' : Char).toNat = 9 := rfl
  have hn : ('\n' : Char).toNat = 10 := rfl
  have hv : ('\x0b' : Char).toNat = 11 := rfl
  have hf : ('\x0c' : Char).toNat = 12 := rfl
  have hr : ('\r' : Char).toNat = 13 := rfl
  simp only [isJsWhitespace, Bool.or_eq_true, beq_iff_eq, char_eq_iff,
    hs, ht, hn, hv, hf, hr]
  tauto

theorem toLower_fix (c : Char)
    (h : (97 ≤ c.toNat ∧ c.toNat ≤ 122) ∨ (48 ≤ c.toNat ∧ c.toNat ≤ 57) ∨
      c.toNat = 32 ∨ c.toNat = 45) :
    Char.toLower c = c := by
  unfold Char.toLower
  have hno : ¬ (c.toNat ≥ 65 ∧ c.toNat ≤ 90) := by omega
  simp [hno]

/-! ### Structural lemmas about `squashRuns` and `jsTrim` -/

theorem squashRuns_one (p : Char → Bool) (r a : Char) :
    squashRuns p r [a] = if p a then [r] else [a] := rfl

theorem squashRuns_two (p : Char → Bool) (r a b : Char) (l : List Char) :
    squashRuns p r (a :: b :: l) =
      if p a then
        if p b then squashRuns p r (b :: l)
        else r :: squashRuns p r (b :: l)
      else a :: squashRuns p r (b :: l) := rfl

theorem noDoubleHyphen_two (a b : Char) (l : List Char) :
    noDoubleHyphen (a :: b :: l) =
      (!(a == '-' && b == '-') && noDoubleHyphen (b :: l)) := rfl

theorem squashRuns_mem (p : Char → Bool) (r : Char) :
    ∀ l : List Char, ∀ c ∈ squashRuns p r l, c = r ∨ (c ∈ l ∧ p c = false)
  | [] => by simp [squashRuns]
  | [a] => by
    intro c hc
    rw [squashRuns_one] at hc
    by_cases h : p a
    · rw [if_pos h] at hc
      exact Or.inl (List.mem_singleton.mp hc)
    · rw [if_neg h] at hc
      have hca : c = a := List.mem_singleton.mp hc
      exact Or.inr ⟨by simp [hca], by simpa [hca] using h⟩
  | a :: b :: rest => by
    intro c hc
    rw [squashRuns_two] at hc
    by_cases ha : p a
    · by_cases hb : p b
      · rw [if_pos ha, if_pos hb] at hc
        rcases squashRuns_mem p r (b :: rest) c hc with h | ⟨h1, h2⟩
        · exact Or.inl h
        · exact Or.inr ⟨List.mem_cons_of_mem _ h1, h2⟩
      · rw [if_pos ha, if_neg hb, List.mem_cons] at hc
        rcases hc with h | hc
        · exact Or.inl h
        · rcases squashRuns_mem p r (b :: rest) c hc with h | ⟨h1, h2⟩
          · exact Or.inl h
          · exact Or.inr ⟨List.mem_cons_of_mem _ h1, h2⟩
    · rw [if_neg ha, List.mem_cons] at hc
      rcases hc with h | hc
      · exact Or.inr ⟨by simp [h], by simpa [h] using ha⟩
      · rcases squashRuns_mem p r (b :: rest) c hc with h | ⟨h1, h2⟩
        · exact Or.inl h
        · exact Or.inr ⟨List.mem_cons_of_mem _ h1, h2⟩

theorem squashRuns_cons_neg (p : Char → Bool) (r a : Char) (l : List Char)
    (h : p a = false) : squashRuns p r (a :: l) = a :: squashRuns p r l := by
  cases l with
  | nil => rw [squashRuns_one, if_neg (by simp [h])]; rfl
  | cons b rest => rw [squashRuns_two, if_neg (by simp [h])]

theorem squashRuns_id_of_not (p : Char → Bool) (r : Char) :
    ∀ l : List Char, (∀ c ∈ l, p c = false) → squashRuns p r l = l
  | [] => fun _ => rfl
  | a :: l => fun h => by
    rw [squashRuns_cons_neg p r a _ (h a (List.mem_cons_self a _))]
    rw [squashRuns_id_of_not p r l (fun c hc => h c (List.mem_cons_of_mem _ hc))]

theorem noDoubleHyphen_cons (a : Char) (l : List Char)
    (h : noDoubleHyphen l = true) (h2 : a = '-' → l.head? ≠ some '-') :
    noDoubleHyphen (a :: l) = true := by
  cases l with
  | nil => rfl
  | cons b rest =>
    rw [noDoubleHyphen_two, Bool.and_eq_true]
    refine ⟨?_, h⟩
    by_cases ha : a = '-'
    · have hb : b ≠ '-' := by
        intro hb
        exact h2 ha (by simp [hb])
      simp [hb]
    · simp [ha]

theorem noDoubleHyphen_squash :
    ∀ l : List Char, noDoubleHyphen (squashRuns isHyphen '-' l) = true
  | [] => rfl
  | [a] => by
    rw [squashRuns_one]
    by_cases h : isHyphen a
    · rw [if_pos h]; rfl
    · rw [if_neg h]; rfl
  | a :: b :: rest => by
    rw [squashRuns_two]
    by_cases ha : isHyphen a
    · by_cases hb : isHyphen b
      · rw [if_pos ha, if_pos hb]
        exact noDoubleHyphen_squash (b :: rest)
      · have hbf : isHyphen b = false := Bool.not_eq_true _ |>.mp hb
        have hbne : b ≠ '-' := by simpa [isHyphen] using hb
        rw [if_pos ha, if_neg hb, squashRuns_cons_neg _ _ _ _ hbf]
        apply noDoubleHyphen_cons
        · rw [← squashRuns_cons_neg _ _ _ _ hbf]
          exact noDoubleHyphen_squash (b :: rest)
        · intro _
          simp [hbne]
    · have hane : a ≠ '-' := by simpa [isHyphen] using ha
      rw [if_neg ha]
      apply noDoubleHyphen_cons
      · exact noDoubleHyphen_squash (b :: rest)
      · intro h
        exact absurd h hane

theorem squashHyphen_id :
    ∀ l : List Char, noDoubleHyphen l = true → squashRuns isHyphen '-' l = l
  | [] => fun _ => rfl
  | [a] => fun _ => by
    rw [squashRuns_one]
    by_cases h : isHyphen a
    · rw [if_pos h]
      have : a = '-' := by simpa [isHyphen] using h
      rw [this]
    · rw [if_neg h]
  | a :: b :: rest => fun h => by
    rw [noDoubleHyphen_two, Bool.and_eq_true] at h
    obtain ⟨h1, hd⟩ := h
    rw [squashRuns_two]
    by_cases ha : isHyphen a
    · have haeq : a = '-' := by simpa [isHyphen] using ha
      have hb : b ≠ '-' := by
        intro hbeq
        rw [haeq, hbeq] at h1
        simp at h1
      have hbf : isHyphen b = false := by simp [isHyphen, hb]
      rw [if_pos ha, if_neg (by simp [hbf]), squashHyphen_id (b :: rest) hd, haeq]
    · rw [if_neg ha, squashHyphen_id (b :: rest) hd]

theorem dropWhile_eq_self_of (p : Char → Bool) (l : List Char)
    (h : ∀ c ∈ l, p c = false) : l.dropWhile p = l := by
  cases l with
  | nil => rfl
  | cons a l => simp [List.dropWhile_cons, h a (List.mem_cons_self a l)]

theorem jsTrim_eq_self (l : List Char)
    (h : ∀ c ∈ l, isJsWhitespace c = false) : jsTrim l = l := by
  unfold jsTrim
  rw [dropWhile_eq_self_of _ _ h, dropWhile_eq_self_of, List.reverse_reverse]
  intro c hc
  exact h c (by simpa using hc)

/-! ### The shape of every `generateSlug` output -/

theorem generateSlug_chars (T : List Char) :
    ∀ c ∈ squashRuns isHyphen '-'
        (squashRuns isJsWhitespace '-' ((T.map Char.toLower).filter keepChar)),
      isSlugChar c = true ∧ isJsWhitespace c = false := by
  intro c hc
  rcases squashRuns_mem _ _ _ c hc with h | ⟨h1, _⟩
  · subst h
    exact ⟨by decide, by decide⟩
  · rcases squashRuns_mem _ _ _ c h1 with h | ⟨h2, hws⟩
    · subst h
      exact ⟨by decide, by decide⟩
    · have hk : keepChar c = true := (List.mem_filter.mp h2).2
      refine ⟨?_, hws⟩
      rw [keepChar_iff] at hk
      have hnw : ¬ (c.toNat = 32 ∨ c.toNat = 9 ∨ c.toNat = 10 ∨ c.toNat = 11 ∨
          c.toNat = 12 ∨ c.toNat = 13) := by
        intro hcon
        rw [← isJsWhitespace_iff c] at hcon
        rw [hcon] at hws
        exact Bool.true_eq_false.mp hws
      rw [isSlugChar_iff]
      omega

/-- C1 (amended): for every title `T`, `generateSlug T` contains only
lowercase letters, digits and hyphens, and never two consecutive hyphens.
(The no-leading/trailing-hyphen part of the original claim is false; see the
counterexample.) -/
theorem generateSlug_shape (T : List Char) :
    (generateSlug T).all isSlugChar = true ∧
      noDoubleHyphen (generateSlug T) = true := by
  have hmem := generateSlug_chars T
  have htrim : generateSlug T = squashRuns isHyphen '-'
      (squashRuns isJsWhitespace '-' ((T.map Char.toLower).filter keepChar)) := by
    unfold generateSlug
    exact jsTrim_eq_self _ (fun c hc => (hmem c hc).2)
  rw [htrim]
  exact ⟨List.all_eq_true.mpr (fun c hc => (hmem c hc).1),
    noDoubleHyphen_squash _⟩

/-- C1 counterexample: the title `" a"` (leading space) slugifies to `"-a"`,
which begins with a hyphen, refuting the claim that no output of the
slug-derivation function has a leading or trailing hyphen. -/
theorem generateSlug_edgeHyphen_cex :
    generateSlug (" a".data) = "-a".data ∧
      noEdgeHyphen (generateSlug (" a".data)) = false := by
  constructor <;> decide

/-- C8: the worked scenario of the spec — the title `"Hello, World!  Foo"`
(two spaces before `Foo`) slugifies to `"hello-world-foo"`. -/
theorem generateSlug_helloWorldFoo :
    generateSlug ("Hello, World!  Foo".data) = "hello-world-foo".data := by
  decide

/-! ### Idempotence on slug-shaped strings -/

theorem map_toLower_id (T : List Char) (h : ∀ c ∈ T, isSlugChar c = true) :
    T.map Char.toLower = T := by
  induction T with
  | nil => rfl
  | cons a l ih =>
    have ha : isSlugChar a = true := h a (List.mem_cons_self a l)
    rw [isSlugChar_iff] at ha
    simp only [List.map_cons]
    rw [toLower_fix a (by omega), ih (fun c hc => h c (List.mem_cons_of_mem _ hc))]

theorem generateSlug_slugShaped_id (T : List Char) (h : slugShaped T = true) :
    generateSlug T = T := by
  have h' := h
  unfold slugShaped at h'
  rw [Bool.and_eq_true, Bool.and_eq_true] at h'
  obtain ⟨⟨hall, hnd⟩, _⟩ := h'
  have hchars : ∀ c ∈ T, isSlugChar c = true := List.all_eq_true.mp hall
  have hkeep : ∀ c ∈ T, keepChar c = true := by
    intro c hc
    have := hchars c hc
    rw [isSlugChar_iff] at this
    rw [keepChar_iff]
    omega
  have hnws : ∀ c ∈ T, isJsWhitespace c = false := by
    intro c hc
    have := hchars c hc
    rw [isSlugChar_iff] at this
    by_cases hw : isJsWhitespace c = true
    · rw [isJsWhitespace_iff] at hw
      omega
    · exact Bool.not_eq_true _ |>.mp hw
  unfold generateSlug
  rw [map_toLower_id T hchars, List.filter_eq_self.mpr hkeep,
    squashRuns_id_of_not _ _ T hnws, squashHyphen_id T hnd, jsTrim_eq_self T hnws]

/-- C9: `generateSlug` is the identity on slug-shaped inputs (strings of
lowercase letters, digits and single hyphens with no leading/trailing hyphen),
and in particular idempotent there. -/
theorem generateSlug_idempotent (T : List Char) (h : slugShaped T = true) :
    generateSlug T = T ∧
      generateSlug (generateSlug T) = generateSlug T := by
  have hid := generateSlug_slugShaped_id T h
  exact ⟨hid, by rw [hid]; exact hid⟩

/-- Witness for C9 at the concrete slug-shaped title `"abc-1"`. -/
theorem generateSlug_idempotent_witness :
    slugShaped ("abc-1".data) = true ∧
      generateSlug ("abc-1".data) = "abc-1".data :=
  ⟨by decide, (generateSlug_idempotent ("abc-1".data) (by decide)).1⟩

/-! ## The Post data model (spec section 3, `BlogPost` interface in the source)

Timestamps are modelled as natural numbers (larger = later); identifiers as
naturals; all text as `List Char`. -/

inductive Status
  | draft
  | published
deriving DecidableEq

structure Post where
  id : Nat
  title : List Char
  content : List Char
  excerpt : Option (List Char)
  image_url : Option (List Char)
  image_name : Option (List Char)
  slug : List Char
  status : Status
  created_at : Nat
  updated_at : Nat
deriving DecidableEq

/-! ## Listing retrieval (`fetchPosts`, src/unnamed/part_000 lines 276-291)

The Supabase query
`.select("*").eq("status", "published").order("created_at", ascending false)`
is modelled as: filter the table's rows to those with status `published`, then
sort them by `created_at` descending. -/

/-- Embeds the listing view's fetch: all published posts, newest first. -/
def fetchPosts (db : List Post) : List Post :=
  (db.filter (fun p => p.status == Status.published)).mergeSort
    (fun a b => Nat.ble b.created_at a.created_at)

/-- C2: the listing fetch returns exactly the posts whose status is
`published` (a permutation of the published subset of the table, hence no
limit and nothing else), ordered by `created_at` descending. -/
theorem fetchPosts_spec (db : List Post) :
    (fetchPosts db).Perm (db.filter (fun p => p.status == Status.published)) ∧
      (∀ p, p ∈ fetchPosts db ↔ (p ∈ db ∧ p.status = Status.published)) ∧
      (fetchPosts db).Pairwise (fun a b => b.created_at ≤ a.created_at) := by
  have hperm : (fetchPosts db).Perm
      (db.filter (fun p => p.status == Status.published)) :=
    List.mergeSort_perm _ _
  refine ⟨hperm, ?_, ?_⟩
  · intro p
    rw [hperm.mem_iff, List.mem_filter]
    simp [beq_iff_eq]
  · have hs := @List.sorted_mergeSort Post
      (fun a b : Post => Nat.ble b.created_at a.created_at)
      (fun a b c h1 h2 => by
        simp only [Nat.ble_eq] at h1 h2 ⊢
        omega)
      (fun a b => by
        simp only [Bool.or_eq_true, Nat.ble_eq]
        omega)
      (db.filter (fun p => p.status == Status.published))
    exact hs.imp (fun h => by simpa [Nat.ble_eq] using h)

/-! ## Single-row queries and their error signals

The views call the remote store's "exactly one row" mode (`.single()`).
The store itself is not part of this repository; its response contract is
modelled from the spec (section 4.3, 7): a matching row is returned as data,
a zero-row result fails with the store-specific "no rows" signal, and any
other failure — multiple-row ambiguity, transport errors — fails with some
other error code. -/

/-- Response of the store's single-row mode: one row, or an error code. -/
inductive SingleResp
  | ok (p : Post)
  | err (code : List Char)
deriving DecidableEq

/-- The store-specific "no rows" error signal the detail view inspects
(string literal `"PGRST116"` at src/unnamed/part_000 line 39). -/
def noRowsCode : List Char := "PGRST116".data

/-- Modelled from the spec: the error signal for multiple-row ambiguity,
an "other failure" distinct from the no-rows signal (spec section 4.3 (c)). -/
def multiRowsCode : List Char := "MULTIPLE_ROWS".data

/-- A representative transport-failure code, used as a concrete "other
failure" in witnesses. -/
def transportCode : List Char := "FETCH_ERROR".data

/-- Modelled from the spec: the store's single-row query of the public detail
view — `.eq("slug", slug).eq("status", "published").single()` — over a table
`db`: the unique matching published row, the no-rows signal when none
matches, and a different failure signal on multiple-row ambiguity. -/
def singleQueryBySlug (db : List Post) (slug : List Char) : SingleResp :=
  match db.filter (fun p => p.slug == slug && p.status == Status.published) with
  | [p] => SingleResp.ok p
  | [] => SingleResp.err noRowsCode
  | _ => SingleResp.err multiRowsCode

/-- Modelled from the spec: the store's single-row query of the edit view —
`.eq("id", postId).single()`. -/
def singleQueryById (db : List Post) (postId : Nat) : SingleResp :=
  match db.filter (fun p => p.id == postId) with
  | [p] => SingleResp.ok p
  | [] => SingleResp.err noRowsCode
  | _ => SingleResp.err multiRowsCode

/-! ## Public detail view (`fetchPost`, src/unnamed/part_000 lines 29-55) -/

/-- The three user-visible states of the public detail view. -/
inductive DetailState
  | renderPost (p : Post)
  | notFound
  | errorLoading
deriving DecidableEq

/-- Embeds the detail view's `fetchPost` dispatch: data renders the post; an
error with code `"PGRST116"` sets "Blog post not found"; any other error is
re-thrown and caught as "Error loading blog post". -/
def detailOutcome : SingleResp → DetailState
  | SingleResp.ok p => DetailState.renderPost p
  | SingleResp.err code =>
    if code == noRowsCode then DetailState.notFound else DetailState.errorLoading

/-- The public detail view as a function of the table and the slug. -/
def detailView (db : List Post) (slug : List Char) : DetailState :=
  detailOutcome (singleQueryBySlug db slug)

/-- C3: the public detail view renders a unique matching published row, shows
the not-found state exactly on the store's zero-row signal, and shows a
generic error-loading state — distinct from not-found — on every other
failure (multiple-row ambiguity, transport errors). -/
theorem detailView_outcomes (db : List Post) (slug : List Char) :
    (∀ p, db.filter (fun q => q.slug == slug && q.status == Status.published)
        = [p] → detailView db slug = DetailState.renderPost p) ∧
      (db.filter (fun q => q.slug == slug && q.status == Status.published)
        = [] → detailView db slug = DetailState.notFound) ∧
      (∀ p q rest,
        db.filter (fun r => r.slug == slug && r.status == Status.published)
          = p :: q :: rest → detailView db slug = DetailState.errorLoading) ∧
      (∀ code, code ≠ noRowsCode →
        detailOutcome (SingleResp.err code) = DetailState.errorLoading) ∧
      DetailState.notFound ≠ DetailState.errorLoading := by
  refine ⟨?_, ?_, ?_, ?_, by simp⟩
  · intro p hp
    unfold detailView singleQueryBySlug
    rw [hp]
    rfl
  · intro hp
    unfold detailView singleQueryBySlug
    rw [hp]
    decide
  · intro p q rest hp
    unfold detailView singleQueryBySlug
    rw [hp]
    show detailOutcome (SingleResp.err multiRowsCode) = DetailState.errorLoading
    decide
  · intro code hcode
    have hne : (code == noRowsCode) = false := by simpa using hcode
    simp [detailOutcome, hne]

/-- A concrete published post, used in witnesses. -/
def samplePost : Post :=
  ⟨1, "t".data, "c".data, none, none, none, "s".data, Status.published, 0, 0⟩

/-- A second concrete post sharing `samplePost`'s id, used in witnesses. -/
def samplePost₂ : Post :=
  ⟨1, "u".data, "d".data, none, none, none, "r".data, Status.draft, 0, 0⟩

/-- Witness for C3: a table with one matching published post renders it; an
empty table yields not-found; a transport error code yields error-loading. -/
theorem detailView_outcomes_witness :
    detailView [samplePost] ("s".data) = DetailState.renderPost samplePost ∧
      detailView [] ("s".data) = DetailState.notFound ∧
      detailOutcome (SingleResp.err transportCode) = DetailState.errorLoading :=
  ⟨(detailView_outcomes [samplePost] ("s".data)).1 samplePost (by decide),
    (detailView_outcomes [] ("s".data)).2.1 (by decide),
    (detailView_outcomes [] ("s".data)).2.2.2.1 transportCode (by decide)⟩

/-! ## Edit view's initial fetch (`fetchPost` of the edit page, lines 35-57) -/

/-- The edit view after its initial fetch: either the populated form, or the
single "Post not found" state. -/
inductive EditFetchView
  | form (p : Post)
  | postNotFound
deriving DecidableEq

/-- Embeds the edit view's `fetchPost` dispatch: any error at all — the code
is never inspected — throws, and the catch block sets "Post not found". -/
def editFetchOutcome : SingleResp → EditFetchView
  | SingleResp.ok p => EditFetchView.form p
  | SingleResp.err _ => EditFetchView.postNotFound

/-- The edit view's initial state as a function of the table and the id. -/
def editFetchView (db : List Post) (postId : Nat) : EditFetchView :=
  editFetchOutcome (singleQueryById db postId)

/-- C10: the edit view's initial fetch maps every failure — the zero-row
signal, multiple-row ambiguity, and any transport error alike — to the single
"Post not found" state, whereas the public detail view's dispatch does
distinguish the no-rows signal from other failures. -/
theorem editFetch_collapsesFailures (db : List Post) (postId : Nat) :
    (∀ code, editFetchOutcome (SingleResp.err code) = EditFetchView.postNotFound) ∧
      (db.filter (fun p => p.id == postId) = [] →
        editFetchView db postId = EditFetchView.postNotFound) ∧
      (∀ p q rest, db.filter (fun r => r.id == postId) = p :: q :: rest →
        editFetchView db postId = EditFetchView.postNotFound) ∧
      detailOutcome (SingleResp.err noRowsCode) = DetailState.notFound ∧
      detailOutcome (SingleResp.err transportCode) = DetailState.errorLoading := by
  refine ⟨fun code => rfl, ?_, ?_, by decide, by decide⟩
  · intro hp
    unfold editFetchView singleQueryById
    rw [hp]
    rfl
  · intro p q rest hp
    unfold editFetchView singleQueryById
    rw [hp]
    rfl

/-- Witness for C10 at concrete inputs: the empty table and a two-row
ambiguity both land in "Post not found". -/
theorem editFetch_collapsesFailures_witness :
    editFetchView [] 1 = EditFetchView.postNotFound ∧
      editFetchView [samplePost, samplePost₂] 1 = EditFetchView.postNotFound :=
  ⟨(editFetch_collapsesFailures [] 1).2.1 (by decide),
    (editFetch_collapsesFailures [samplePost, samplePost₂] 1).2.2.1
      samplePost samplePost₂ [] (by decide)⟩

/-! ## The submit handlers as request traces

`AdminAddPost.handleSubmit` (add page lines 52-127) and
`EditPost.handleSubmit` (edit page lines 114-179) are modelled as pure
functions from the form's state, plus an environment (the generated object
name, whether the upload and the row write succeed, the resolved public URL,
the clock), to the ordered list of network requests they issue, the alerts
they raise, and (for the create flow) the final form state. -/

/-- The form fields held in component state. Both the create and the edit
form keep exactly `title`, `content`, `excerpt`, `selectedFile`, `status`;
`selectedFile` records the original filename of the chosen file, if any. -/
structure FormState where
  title : List Char
  content : List Char
  excerpt : List Char
  selectedFile : Option (List Char)
  status : Status
deriving DecidableEq

/-- The non-generated columns of a row write (insert lines 81-94 of the add
page; update lines 150-163 of the edit page). -/
structure RowFields where
  title : List Char
  content : List Char
  excerpt : Option (List Char)
  image_url : Option (List Char)
  image_name : Option (List Char)
  slug : List Char
  status : Status
deriving DecidableEq

/-- A network request issued against the remote store. -/
inductive Req
  | storageUpload (name : List Char)
  | storageDelete (name : List Char)
  | dbInsert (fields : RowFields)
  | dbUpdate (postId : Nat) (fields : RowFields) (updated_at : Nat)
deriving DecidableEq

/-- The row payload both handlers build: trimmed title and content,
`excerpt.trim() || null`, the resolved image columns, a slug re-derived from
the raw title, and the selected status. -/
def rowPayload (form : FormState) (imageUrl imageName : Option (List Char)) :
    RowFields :=
  { title := jsTrim form.title
    content := jsTrim form.content
    excerpt := if (jsTrim form.excerpt).isEmpty then none
               else some (jsTrim form.excerpt)
    image_url := imageUrl
    image_name := imageName
    slug := generateSlug form.title
    status := form.status }

/-- Environment of one submission: the collision-resistant object name the
handler generates, whether the storage upload succeeds, the public URL
resolved for that name, whether the row write succeeds (with the store's
error message when it does not), and the clock read for `updated_at`. -/
structure SubmitEnv where
  genName : List Char
  uploadOk : Bool
  publicUrl : List Char
  writeOk : Bool
  errMsg : List Char
  now : Nat
deriving DecidableEq

def requiredMsg : List Char := "Title and content are required!".data

def uploadErrMsg : List Char := "Error uploading image!".data

def createdMsg : List Char := "Blog post created successfully!".data

def updatedMsg : List Char := "Post updated successfully!".data

def saveErrorAlert (msg : List Char) : List Char :=
  "Error saving blog post: ".data ++ msg

def updateErrorAlert (msg : List Char) : List Char :=
  "Error updating post: ".data ++ msg

/-- The create form after its success-path reset (add page lines 106-110). -/
def resetForm : FormState :=
  { title := [], content := [], excerpt := [], selectedFile := none
    status := Status.published }

/-- What one run of the create submit handler does. -/
structure AddOutcome where
  requests : List Req
  alerts : List (List Char)
  form : FormState
deriving DecidableEq

/-- Embeds `AdminAddPost.handleSubmit` (add page lines 52-127): validate that
the trimmed title and content are non-empty; if a file is selected, upload it
(on failure: alert inside `uploadImage`, then stop before any insert); insert
the row; on insert failure alert and keep the form; on success alert and
reset the form. -/
def addSubmit (form : FormState) (env : SubmitEnv) : AddOutcome :=
  if (jsTrim form.title).isEmpty || (jsTrim form.content).isEmpty then
    { requests := [], alerts := [requiredMsg], form := form }
  else
    match form.selectedFile with
    | some fileName =>
      if env.uploadOk then
        if env.writeOk then
          { requests := [Req.storageUpload env.genName,
              Req.dbInsert (rowPayload form (some env.publicUrl) (some fileName))]
            alerts := [createdMsg], form := resetForm }
        else
          { requests := [Req.storageUpload env.genName,
              Req.dbInsert (rowPayload form (some env.publicUrl) (some fileName))]
            alerts := [saveErrorAlert env.errMsg], form := form }
      else
        { requests := [Req.storageUpload env.genName]
          alerts := [uploadErrMsg], form := form }
    | none =>
      if env.writeOk then
        { requests := [Req.dbInsert (rowPayload form none none)]
          alerts := [createdMsg], form := resetForm }
      else
        { requests := [Req.dbInsert (rowPayload form none none)]
          alerts := [saveErrorAlert env.errMsg], form := form }

/-- JavaScript `x || null` on an optional string: the empty string is falsy
and collapses to null (edit page lines 125-126). -/
def orNull : Option (List Char) → Option (List Char)
  | some s => if s.isEmpty then none else some s
  | none => none

/-- `imageUrl.split("/").pop()`: the segment after the last slash. -/
def lastSegment (url : List Char) : List Char :=
  (url.splitOn '/').getLastD []

/-- Embeds `deleteOldImage` (edit page lines 102-111): extract the object
name from the URL and, when it is non-empty (`if (fileName)`), request its
removal; removal failure is swallowed, so no branching on it. -/
def deleteOldImage (url : List Char) : List Req :=
  if (lastSegment url).isEmpty then [] else [Req.storageDelete (lastSegment url)]

/-- What one run of the edit submit handler does. -/
structure EditOutcome where
  requests : List Req
  alerts : List (List Char)
deriving DecidableEq

/-- Embeds `EditPost.handleSubmit` (edit page lines 114-179): validate; if a
new file is selected, first delete the old image when `post.image_url` is
truthy, then upload the new file (on failure: alert and stop before the
update); finally update the row by id with a refreshed `updated_at`. When no
file is selected the image columns are passed through `x || null`. -/
def editSubmit (post : Post) (form : FormState) (env : SubmitEnv) : EditOutcome :=
  if (jsTrim form.title).isEmpty || (jsTrim form.content).isEmpty then
    { requests := [], alerts := [requiredMsg] }
  else
    match form.selectedFile with
    | some fileName =>
      let deletes := match orNull post.image_url with
        | some url => deleteOldImage url
        | none => []
      if env.uploadOk then
        if env.writeOk then
          { requests := deletes ++ [Req.storageUpload env.genName,
              Req.dbUpdate post.id
                (rowPayload form (some env.publicUrl) (some fileName)) env.now]
            alerts := [updatedMsg] }
        else
          { requests := deletes ++ [Req.storageUpload env.genName,
              Req.dbUpdate post.id
                (rowPayload form (some env.publicUrl) (some fileName)) env.now]
            alerts := [updateErrorAlert env.errMsg] }
      else
        { requests := deletes ++ [Req.storageUpload env.genName]
          alerts := [uploadErrMsg] }
    | none =>
      if env.writeOk then
        { requests := [Req.dbUpdate post.id
            (rowPayload form (orNull post.image_url) (orNull post.image_name))
            env.now]
          alerts := [updatedMsg] }
      else
        { requests := [Req.dbUpdate post.id
            (rowPayload form (orNull post.image_url) (orNull post.image_name))
            env.now]
          alerts := [updateErrorAlert env.errMsg] }

theorem orNull_some_of_ne (s : List Char) (h : s ≠ []) :
    orNull (some s) = some s := by
  show (if s.isEmpty = true then none else some s) = some s
  rw [if_neg]
  simpa using h

theorem orNull_eq_self (o : Option (List Char)) (h : o ≠ some []) :
    orNull o = o := by
  cases o with
  | none => rfl
  | some s =>
    have hs : s ≠ [] := fun he => h (by rw [he])
    exact orNull_some_of_ne s hs

/-! ## Claim theorems about the submit handlers -/

/-- C4: in the edit flow, when the post has a truthy `image_url` and a new
file is selected (and the submission proceeds: validation passes and the
upload succeeds), the handler issues exactly one storage delete of the old
image's name, then exactly one upload under the generated name, then the row
update — in that order and nothing else. The trace is the same whether or not
the update succeeds, since the update request precedes its error check. -/
theorem editSubmit_imageReplacement (post : Post) (form : FormState)
    (env : SubmitEnv) (url fileName : List Char)
    (himg : post.image_url = some url) (hne : url ≠ [])
    (hseg : lastSegment url ≠ [])
    (hfile : form.selectedFile = some fileName)
    (ht : (jsTrim form.title).isEmpty = false)
    (hc : (jsTrim form.content).isEmpty = false)
    (hup : env.uploadOk = true) :
    (editSubmit post form env).requests =
      [Req.storageDelete (lastSegment url),
        Req.storageUpload env.genName,
        Req.dbUpdate post.id
          (rowPayload form (some env.publicUrl) (some fileName)) env.now] := by
  have hdel : deleteOldImage url = [Req.storageDelete (lastSegment url)] := by
    unfold deleteOldImage
    rw [if_neg (by simpa using hseg)]
  unfold editSubmit
  rw [ht, hc, hfile, himg, orNull_some_of_ne url hne, hup]
  cases env.writeOk <;> simp [hdel]

/-- Witness data for the submit-flow claims. -/
def oldImageUrl : List Char :=
  "https://supabase.example/storage/v1/object/public/blog-images/old.png".data

def postWithImage : Post :=
  ⟨2, "t".data, "c".data, none, some oldImageUrl, some ("old.png".data),
    "t".data, Status.published, 0, 0⟩

def sampleForm : FormState :=
  { title := "New Title".data, content := "Body".data, excerpt := []
    selectedFile := some ("new.png".data), status := Status.published }

def sampleEnv : SubmitEnv :=
  { genName := "1700000000000-abc123.png".data, uploadOk := true
    publicUrl := "https://supabase.example/storage/v1/object/public/blog-images/1700000000000-abc123.png".data
    writeOk := true, errMsg := [], now := 5 }

/-- Witness for C4 at a concrete post, form and environment. -/
theorem editSubmit_imageReplacement_witness :
    (editSubmit postWithImage sampleForm sampleEnv).requests =
      [Req.storageDelete (lastSegment oldImageUrl),
        Req.storageUpload sampleEnv.genName,
        Req.dbUpdate postWithImage.id
          (rowPayload sampleForm (some sampleEnv.publicUrl)
            (some ("new.png".data))) sampleEnv.now] :=
  editSubmit_imageReplacement postWithImage sampleForm sampleEnv
    oldImageUrl ("new.png".data) rfl (by decide) (by decide) rfl
    (by decide) (by decide) rfl

/-- C6: in the edit flow, when no new file is selected (and validation
passes), the single request issued is the row update, and it carries the
post's existing `image_url` and `image_name` unchanged — the non-degenerate
hypothesis excludes the empty string, which JavaScript's `x || null` would
collapse to null — while the remaining columns come from the form. -/
theorem editSubmit_keepsImage (post : Post) (form : FormState)
    (env : SubmitEnv)
    (hfile : form.selectedFile = none)
    (ht : (jsTrim form.title).isEmpty = false)
    (hc : (jsTrim form.content).isEmpty = false)
    (hu : post.image_url ≠ some []) (hn : post.image_name ≠ some []) :
    (editSubmit post form env).requests =
      [Req.dbUpdate post.id
        (rowPayload form post.image_url post.image_name) env.now] ∧
      (rowPayload form post.image_url post.image_name).image_url
        = post.image_url ∧
      (rowPayload form post.image_url post.image_name).image_name
        = post.image_name := by
  refine ⟨?_, rfl, rfl⟩
  unfold editSubmit
  rw [ht, hc, hfile, orNull_eq_self _ hu, orNull_eq_self _ hn]
  cases env.writeOk <;> simp

/-- Witness for C6: editing `postWithImage` without choosing a new file. -/
theorem editSubmit_keepsImage_witness :
    (editSubmit postWithImage
        { sampleForm with selectedFile := none } sampleEnv).requests =
      [Req.dbUpdate postWithImage.id
        (rowPayload { sampleForm with selectedFile := none }
          postWithImage.image_url postWithImage.image_name) sampleEnv.now] :=
  (editSubmit_keepsImage postWithImage
    { sampleForm with selectedFile := none } sampleEnv rfl
    (by decide) (by decide) (by decide) (by decide)).1

/-- C5: in the create flow, when a file is selected and its upload fails (and
validation passes), the only request issued is the failed upload — in
particular no row insert reaches the database — the user is alerted with the
upload-error message, and the form state is left unchanged. -/
theorem addSubmit_uploadFailure (form : FormState) (env : SubmitEnv)
    (fileName : List Char)
    (hfile : form.selectedFile = some fileName)
    (ht : (jsTrim form.title).isEmpty = false)
    (hc : (jsTrim form.content).isEmpty = false)
    (hup : env.uploadOk = false) :
    (addSubmit form env).requests = [Req.storageUpload env.genName] ∧
      (∀ fields, Req.dbInsert fields ∉ (addSubmit form env).requests) ∧
      uploadErrMsg ∈ (addSubmit form env).alerts ∧
      (addSubmit form env).form = form := by
  have he : addSubmit form env =
      { requests := [Req.storageUpload env.genName]
        alerts := [uploadErrMsg], form := form } := by
    unfold addSubmit
    rw [ht, hc, hfile, hup]
    simp
  rw [he]
  refine ⟨rfl, ?_, ?_, rfl⟩
  · intro fields hmem
    simp at hmem
  · simp

/-- Witness for C5: the sample create form with a failing upload. -/
theorem addSubmit_uploadFailure_witness :
    (addSubmit sampleForm { sampleEnv with uploadOk := false }).requests
      = [Req.storageUpload sampleEnv.genName] ∧
      (addSubmit sampleForm { sampleEnv with uploadOk := false }).form
      = sampleForm :=
  ⟨(addSubmit_uploadFailure sampleForm { sampleEnv with uploadOk := false }
      ("new.png".data) rfl (by decide) (by decide) rfl).1,
    (addSubmit_uploadFailure sampleForm { sampleEnv with uploadOk := false }
      ("new.png".data) rfl (by decide) (by decide) rfl).2.2.2⟩

/-- C7: a create submission whose title or content trims to the empty string
issues no request at all (no insert, no upload), raises only the validation
alert, and leaves the form state unchanged. -/
theorem addSubmit_validationFailure (form : FormState) (env : SubmitEnv)
    (h : (jsTrim form.title).isEmpty = true ∨
      (jsTrim form.content).isEmpty = true) :
    (addSubmit form env).requests = [] ∧
      (addSubmit form env).alerts = [requiredMsg] ∧
      (addSubmit form env).form = form := by
  have hcond : ((jsTrim form.title).isEmpty
      || (jsTrim form.content).isEmpty) = true := by
    rcases h with h | h <;> simp [h]
  unfold addSubmit
  rw [hcond]
  exact ⟨rfl, rfl, rfl⟩

/-- Witness for C7: a form whose content is whitespace-only. -/
theorem addSubmit_validationFailure_witness :
    (addSubmit { sampleForm with content := "  ".data } sampleEnv).requests
      = [] ∧
      (addSubmit { sampleForm with content := "  ".data } sampleEnv).form
      = { sampleForm with content := "  ".data } :=
  ⟨(addSubmit_validationFailure { sampleForm with content := "  ".data }
      sampleEnv (Or.inr (by decide))).1,
    (addSubmit_validationFailure { sampleForm with content := "  ".data }
      sampleEnv (Or.inr (by decide))).2.2⟩

end Blogspot
